import Mathlib

/-!
Shallow embedding of the LabWise AI knowledge-base resolution and
classification engine (app/utils/medical_utils.py, app/services/rag_service.py,
app/services/classification_service.py, app/services/openai_service.py,
app/services/lab_service.py), together with theorems checking the
natural-language specification against it.

Conventions of the embedding:
- Python floats are modelled as rationals.
- Nullable database columns and Python None are modelled with Option.
- SQLAlchemy queries over the loaded knowledge base are modelled as list
  traversals over an immutable snapshot; query .first() is List.find? and
  ORDER BY is a stable insertion sort, which fixes the implementation-defined
  row order deterministically (the spec flags the source order as open).
- random.uniform(a, b) is modelled as a + (b - a) * u where u is the next
  element of an explicit stream of unit draws, so the hidden RNG state of the
  source becomes an explicit argument.
-/

namespace LabWise

/-- ASCII-wise case-insensitive character list used for Python .lower() and
SQL ILIKE comparisons. -/
def lowerChars (s : String) : List Char :=
  s.toList.map Char.toLower

/-- Checks whether the first character list is a leading segment of the
second (helper for substring search). -/
def charsLead : List Char → List Char → Bool
  | [], _ => true
  | _ :: _, [] => false
  | a :: as, b :: bs => a == b && charsLead as bs

/-- Checks whether the first character list occurs contiguously inside the
second (helper for SQL LIKE with a pattern wrapped in percent signs). -/
def charsSub (pat : List Char) : List Char → Bool
  | [] => charsLead pat []
  | c :: t => charsLead pat (c :: t) || charsSub pat t

/-- Models the SQLAlchemy ilike filter with a percent-wrapped pattern:
case-insensitive containment of pat in the column value. -/
def ilikeContains (field pat : String) : Bool :=
  charsSub (lowerChars pat) (lowerChars field)

/-- Models ilike on a nullable column: a NULL column never matches. -/
def ilikeContainsOpt : Option String → String → Bool
  | none, _ => false
  | some f, pat => ilikeContains f pat

/-- Models Python str.strip(): drop leading and trailing whitespace. -/
def trimChars (l : List Char) : List Char :=
  ((l.dropWhile Char.isWhitespace).reverse.dropWhile Char.isWhitespace).reverse

/-- Models re.sub(r"\s+", " ", _): every maximal whitespace run becomes a
single space.  The boolean tracks whether the previous character was part of
a whitespace run. -/
def collapseWsAux : List Char → Bool → List Char
  | [], _ => []
  | c :: t, inWs =>
    if c.isWhitespace then
      if inWs then collapseWsAux t true else ' ' :: collapseWsAux t true
    else
      c :: collapseWsAux t false

/-- MedicalUtils.TERM_SYNONYMS: the fixed abbreviation-expansion table. -/
def TERM_SYNONYMS : List (String × String) :=
  [("hb", "hemoglobin"),
   ("hgb", "hemoglobin"),
   ("wbc", "white blood cell count"),
   ("rbc", "red blood cell count"),
   ("plt", "platelet count"),
   ("mcv", "mean corpuscular volume"),
   ("mch", "mean corpuscular hemoglobin"),
   ("mchc", "mean corpuscular hemoglobin concentration"),
   ("esr", "erythrocyte sedimentation rate"),
   ("crp", "c-reactive protein"),
   ("alt", "alanine aminotransferase"),
   ("ast", "aspartate aminotransferase"),
   ("alp", "alkaline phosphatase"),
   ("ggt", "gamma-glutamyl transferase"),
   ("ldl", "ldl cholesterol"),
   ("hdl", "hdl cholesterol"),
   ("tsh", "thyroid stimulating hormone"),
   ("ft4", "free thyroxine"),
   ("ft3", "free triiodothyronine"),
   ("hba1c", "hemoglobin a1c"),
   ("a1c", "hemoglobin a1c")]

/-- MedicalUtils.normalize_test_name: lowercase, strip, collapse whitespace,
then substitute an exact hit in the abbreviation table. -/
def normalize_test_name (test_name : String) : String :=
  let cs := (test_name.toList.map Char.toLower)
  let n : String := ⟨collapseWsAux (trimChars cs) false⟩
  match TERM_SYNONYMS.find? (fun p => p.1 == n) with
  | some p => p.2
  | none => n

/-- MedicalUtils.classify_value: LOW if below the low bound (when present),
else HIGH if above the high bound (when present), else NORMAL. -/
def classify_value (value : ℚ) (ref_low ref_high : Option ℚ) : String :=
  if ref_low.any (fun lo => decide (value < lo)) then "LOW"
  else if ref_high.any (fun hi => decide (hi < value)) then "HIGH"
  else "NORMAL"

/-! The knowledge-base data model (app/db/models.py).  Columns that are
nullable in the schema and whose null case the engine inspects are Options;
trust_level and source_priority are integers as the spec ranges them. -/

/-- A row of the tests table. -/
structure Test where
  test_id : Int
  canonical_name : String
  short_name : Option String
  panel_name : Option String
  specimen_type : Option String
  category : Option String
  loinc_code : Option String
  description : Option String
deriving DecidableEq

/-- A row of the sources table. -/
structure Source where
  source_id : Int
  name : String
  srcType : Option String
  url : Option String
  year : Option Int
  trust_level : Int
deriving DecidableEq

/-- A row of the ranges table. -/
structure Range where
  range_id : Int
  test_id : Int
  source_id : Int
  canonical_name : Option String
  unit : Option String
  value_type : Option String
  ref_low : Option ℚ
  ref_high : Option ℚ
  ref_text : Option String
  sex : String
  age_min : Option ℚ
  age_max : Option ℚ
  condition : Option String
  source_priority : Int
  effective_year : Option Int
deriving DecidableEq

/-- A row of the synonyms table. -/
structure Synonym where
  synonym_id : Int
  test_id : Int
  synonym : String
  source_id : Option Int
deriving DecidableEq

/-- The immutable knowledge-base snapshot the engine reads. -/
structure DB where
  tests : List Test
  sources : List Source
  ranges : List Range
  synonyms : List Synonym
deriving DecidableEq

/-- RAGService.find_test: normalize the name, then the first canonical-name
ilike hit, else the first short-name hit, else the first synonym hit resolved
to its owning test. -/
def find_test (db : DB) (test_name : String) : Option Test :=
  let normalized := normalize_test_name test_name
  match db.tests.find? (fun t => ilikeContains t.canonical_name normalized) with
  | some t => some t
  | none =>
    match db.tests.find? (fun t => ilikeContainsOpt t.short_name normalized) with
    | some t => some t
    | none =>
      match db.synonyms.find? (fun s => ilikeContains s.synonym normalized) with
      | some syn => db.tests.find? (fun t => t.test_id == syn.test_id)
      | none => none

/-- The WHERE clause of RAGService.get_reference_range: matching test id,
sex equal to the requested sex or Any, and, only when an age is supplied,
each age bound either NULL or enclosing the age. -/
def rangeMatches (test_id : Int) (sex : String) (age : Option ℚ) (r : Range) : Bool :=
  r.test_id == test_id
    && (r.sex == sex || r.sex == "Any")
    && (match age with
        | none => true
        | some a =>
          (r.age_min.all (fun m => decide (m ≤ a)))
            && (r.age_max.all (fun m => decide (a ≤ m))))

/-- The inner join of ranges with sources on source_id (query.join(Source)):
a range whose source id resolves to no source row is dropped. -/
def joinSource (db : DB) (r : Range) : Option (Range × Source) :=
  (db.sources.find? (fun s => s.source_id == r.source_id)).map (fun s => (r, s))

/-- The strict ORDER BY precedence of get_reference_range: source_priority
ascending first, then the owning source's trust_level descending. -/
def rangePrecedes (a b : Range × Source) : Bool :=
  decide (a.1.source_priority < b.1.source_priority)
    || (a.1.source_priority == b.1.source_priority
        && decide (b.2.trust_level < a.2.trust_level))

/-- Inserts an element into a list, before the first element it strictly
precedes (stable insertion step of the ORDER BY model). -/
def insOrdered (lt : α → α → Bool) (a : α) : List α → List α
  | [] => [a]
  | b :: bs => if lt a b then a :: b :: bs else b :: insOrdered lt a bs

/-- Stable insertion sort modelling ORDER BY with a deterministic tie order. -/
def sortWith (lt : α → α → Bool) : List α → List α
  | [] => []
  | a :: as => insOrdered lt a (sortWith lt as)

/-- The dictionary returned by RAGService.get_reference_range for the winning
range, enriched with the source trust level. -/
structure RefRangeInfo where
  ref_low : Option ℚ
  ref_high : Option ℚ
  ref_text : Option String
  unit : Option String
  value_type : Option String
  source_id : Int
  source_priority : Int
  trust_level : Int
  sex : String
  condition : Option String
deriving DecidableEq

/-- RAGService.get_reference_range: filter the ranges of the test by sex and
(when given) age, join each with its source, order by priority ascending then
trust descending, and return the dictionary for the first; None when no
candidate survives.  The Python defaults are sex="Any", age=None; call sites
here pass both explicitly. -/
def get_reference_range (db : DB) (test_id : Int) (sex : String) (age : Option ℚ) :
    Option RefRangeInfo :=
  let candidates := (db.ranges.filter (rangeMatches test_id sex age)).filterMap (joinSource db)
  match sortWith rangePrecedes candidates with
  | [] => none
  | best :: _ =>
    let src := db.sources.find? (fun s => s.source_id == best.1.source_id)
    let trust_level := (src.map (fun s => s.trust_level)).getD 3
    some { ref_low := best.1.ref_low
           ref_high := best.1.ref_high
           ref_text := best.1.ref_text
           unit := best.1.unit
           value_type := best.1.value_type
           source_id := best.1.source_id
           source_priority := best.1.source_priority
           trust_level := trust_level
           sex := best.1.sex
           condition := best.1.condition }

/-- The dictionary returned by RAGService.get_test_info. -/
structure TestInfo where
  test_id : Int
  canonical_name : String
  short_name : Option String
  panel_name : Option String
  category : Option String
  description : Option String
  reference_range : Option RefRangeInfo
  trust_level : Int
  source_priority : Int
  kb_found : Bool
deriving DecidableEq

/-- RAGService.get_test_info: resolve the test by name, then fetch its
reference range with the default demographics (sex="Any", no age); trust and
priority fall back to 3 when no range was found. -/
def get_test_info (db : DB) (test_name : String) : Option TestInfo :=
  match find_test db test_name with
  | none => none
  | some t =>
    let ref_range := get_reference_range db t.test_id "Any" none
    some { test_id := t.test_id
           canonical_name := t.canonical_name
           short_name := t.short_name
           panel_name := t.panel_name
           category := t.category
           description := t.description
           reference_range := ref_range
           trust_level := ((ref_range.map (fun rr => rr.trust_level)).getD 3)
           source_priority := ((ref_range.map (fun rr => rr.source_priority)).getD 3)
           kb_found := true }

/-- One parsed test item as produced by ParsingService.parse_lab_report and
consumed by RAGService.batch_lookup.  A None value models a missing or null
dictionary entry. -/
structure ParsedResult where
  test_name : String
  normalized_name : Option String
  value : Option ℚ
  unit : String
  reference_range : Option String
deriving DecidableEq

/-- The name batch_lookup feeds to the resolver: the normalized name when
present, the raw test name otherwise — the Python or-expression used there
falls through both on None and on the empty string. -/
def effectiveName (r : ParsedResult) : String :=
  match r.normalized_name with
  | some s => if s == "" then r.test_name else s
  | none => r.test_name

/-- A parsed item enriched with knowledge-base data by batch_lookup. -/
structure Enriched where
  item : ParsedResult
  kb_info : Option TestInfo
  kb_found : Bool
deriving DecidableEq

/-- The loop body of RAGService.batch_lookup for one item. -/
def enrichOne (db : DB) (r : ParsedResult) : Enriched :=
  match get_test_info db (effectiveName r) with
  | some info => { item := r, kb_info := some info, kb_found := true }
  | none => { item := r, kb_info := none, kb_found := false }

/-- RAGService.batch_lookup: one enriched output per input item, in input
order. -/
def batch_lookup (db : DB) (test_results : List ParsedResult) : List Enriched :=
  test_results.map (enrichOne db)

/-- Python str() of a nullable string inside an f-string: None renders as
the four characters None. -/
def pyOptStr : Option String → String
  | some s => s
  | none => "None"

/-- A classified result dictionary as left by
ClassificationService.classify_result.  reference_range is the display
value; classification_reason is set only on the UNKNOWN branches; the ref
bounds are set only when a numeric range was applied. -/
structure Classified where
  item : ParsedResult
  kb_info : Option TestInfo
  kb_found : Bool
  classification : String
  classification_reason : Option String
  ref_low : Option ℚ
  ref_high : Option ℚ
  ref_unit : Option String
  reference_range : Option String
deriving DecidableEq

/-- The early-return shape of classify_result: copy the input dictionary and
attach an UNKNOWN classification with a reason. -/
def unknownResult (e : Enriched) (reason : String) : Classified :=
  { item := e.item
    kb_info := e.kb_info
    kb_found := e.kb_found
    classification := "UNKNOWN"
    classification_reason := some reason
    ref_low := none
    ref_high := none
    ref_unit := none
    reference_range := e.item.reference_range }

/-- ClassificationService.classify_result.  fmt models Python str() on a
float, as used by the display f-strings; the unit slot is a dict get whose
empty-string default is dead because the unit key is always present, so a
NULL unit renders as the word None. -/
def classify_result (fmt : ℚ → String) (e : Enriched) : Classified :=
  if !e.kb_found || e.kb_info.isNone then
    unknownResult e "Test not found in knowledge base"
  else
    match e.kb_info with
    | none => unknownResult e "Test not found in knowledge base"
    | some info =>
      match info.reference_range with
      | none => unknownResult e "No reference range available"
      | some rr =>
        match e.item.value with
        | none => unknownResult e "No numeric value available"
        | some v =>
          let classification := classify_value v rr.ref_low rr.ref_high
          let display : Option String :=
            match rr.ref_low, rr.ref_high with
            | some lo, some hi =>
              some (fmt lo ++ " - " ++ fmt hi ++ " " ++ pyOptStr rr.unit)
            | some lo, none => some ("> " ++ fmt lo ++ " " ++ pyOptStr rr.unit)
            | none, some hi => some ("< " ++ fmt hi ++ " " ++ pyOptStr rr.unit)
            | none, none => rr.ref_text
          { item := e.item
            kb_info := e.kb_info
            kb_found := e.kb_found
            classification := classification
            classification_reason := none
            ref_low := rr.ref_low
            ref_high := rr.ref_high
            ref_unit := rr.unit
            reference_range := display }

/-- ClassificationService.classify_batch: classify every enriched item. -/
def classify_batch (fmt : ℚ → String) (results : List Enriched) : List Classified :=
  results.map (classify_result fmt)

/-- Python round(x, 2), modelled as decimal rounding to cents: floor of
100x + 1/2, over 100.  This takes half-cent ties upward while Python takes
them to even; no claim here touches such a tie. -/
def round2 (x : ℚ) : ℚ :=
  (⌊100 * x + 1 / 2⌋ : ℚ) / 100

/-- Settings.CONFIDENCE_LOW_THRESHOLD (app/utils/config.py). -/
def CONFIDENCE_LOW_THRESHOLD : ℚ := 6 / 10

/-- Settings.CONFIDENCE_MEDIUM_THRESHOLD (app/utils/config.py). -/
def CONFIDENCE_MEDIUM_THRESHOLD : ℚ := 8 / 10

/-- One formatted per-test entry of LabService._format_results. -/
structure FormattedTest where
  test_name : String
  value : Option ℚ
  unit : String
  classification : String
  reference_range : Option String
  kb_found : Bool
  canonical_name : String
  panel_name : Option String
deriving DecidableEq

/-- The response fields of LabService._format_results that the engine
computes (the upload/OCR bookkeeping and the LLM summary are pass-through). -/
structure FinalResults where
  total_tests : Nat
  kb_matched : Nat
  low_results : Nat
  normal_results : Nat
  high_results : Nat
  unknown_results : Nat
  overall_summary : String
  ocr_confidence : ℚ
  confidence_level : String
  tests : List FormattedTest
deriving DecidableEq

/-- The per-test formatting step of _format_results.  The canonical-name get
defaults to the empty string only when kb_info is absent; panel_name passes
a null through when kb_info is present. -/
def formatTest (c : Classified) : FormattedTest :=
  { test_name := c.item.test_name
    value := c.item.value
    unit := c.item.unit
    classification := c.classification
    reference_range := c.reference_range
    kb_found := c.kb_found
    canonical_name := ((c.kb_info.map (fun i => i.canonical_name)).getD "")
    panel_name :=
      match c.kb_info with
      | some i => i.panel_name
      | none => some "" }

/-- LabService._format_results: summary counts, per-test formatting, and the
overall confidence level derived from the OCR confidence alone via the two
fixed thresholds. -/
def format_results (results : List Classified) (ocr_confidence : ℚ)
    (overall_summary : String) : FinalResults :=
  let confidence_level :=
    if CONFIDENCE_MEDIUM_THRESHOLD ≤ ocr_confidence then "HIGH"
    else if CONFIDENCE_LOW_THRESHOLD ≤ ocr_confidence then "MEDIUM"
    else "LOW"
  { total_tests := results.length
    kb_matched := (results.filter (fun r => r.kb_found)).length
    low_results := (results.filter (fun r => r.classification == "LOW")).length
    normal_results := (results.filter (fun r => r.classification == "NORMAL")).length
    high_results := (results.filter (fun r => r.classification == "HIGH")).length
    unknown_results := (results.filter (fun r => r.classification == "UNKNOWN")).length
    overall_summary := overall_summary
    ocr_confidence := round2 ocr_confidence
    confidence_level := confidence_level
    tests := results.map formatTest }

/-- The dictionary returned by OpenAIService.calculate_confidence. -/
structure ConfOutput where
  score : ℚ
  level : String
  source : String
deriving DecidableEq

/-- Takes the next unit draw from the explicit randomness stream; an
exhausted stream yields 0. -/
def drawU : List ℚ → ℚ × List ℚ
  | [] => (0, [])
  | u :: rest => (u, rest)

/-- random.uniform(a, b) over the explicit stream: a + (b - a) * u with u the
next unit draw. -/
def uniformDraw (a b : ℚ) (us : List ℚ) : ℚ × List ℚ :=
  let p := drawU us
  (a + (b - a) * p.1, p.2)

/-- The per-result accumulation step of calculate_confidence: a matched test
contributes its trust/priority blend plus a uniform(-0.05, 0.05) jitter,
clamped to the unit interval; an unmatched test contributes
uniform(0.20, 0.25). -/
def confStep (p : ℚ × List ℚ) (r : Enriched) : ℚ × List ℚ :=
  if r.kb_found then
    let trust_level := ((r.kb_info.map (fun i => i.trust_level)).getD 3)
    let trust_score : ℚ := ((trust_level : ℚ) - 1) / 4
    let source_priority := ((r.kb_info.map (fun i => i.source_priority)).getD 3)
    let priority_score : ℚ := (6 - (source_priority : ℚ)) / 5
    let test_score := trust_score * (6 / 10) + priority_score * (4 / 10)
    let q := uniformDraw (-(5 / 100)) (5 / 100) p.2
    let test_score := max 0 (min 1 (test_score + q.1))
    (p.1 + test_score, q.2)
  else
    let q := uniformDraw (20 / 100) (25 / 100) p.2
    (p.1 + q.1, q.2)

/-- OpenAIService.calculate_confidence with the hidden RNG state made an
explicit stream of unit draws.  Empty results report NONE; zero matches
report a uniform(0.40, 0.50) base score at level LOW; otherwise the blend of
match rate (0.4) and mean per-test score (0.6) is floored at a
uniform(0.20, 0.25) baseline and thresholded at 0.70/0.50. -/
def calculate_confidence (us : List ℚ) (results : List Enriched) (kb_matches : Nat) :
    ConfOutput :=
  if results.isEmpty then
    { score := 0, level := "NONE", source := "No tests extracted" }
  else
    let total_tests := results.length
    if kb_matches == 0 then
      let q := uniformDraw (40 / 100) (50 / 100) us
      { score := round2 q.1, level := "LOW", source := "AI Inference Only (No KB data)" }
    else
      let acc := results.foldl confStep (0, us)
      let avg_score := acc.1 / (total_tests : ℚ)
      let q := uniformDraw (20 / 100) (25 / 100) acc.2
      let kb_match_rate : ℚ := (kb_matches : ℚ) / (total_tests : ℚ)
      let final_score := kb_match_rate * (4 / 10) + avg_score * (6 / 10)
      let final_score := max q.1 final_score
      let level :=
        if (70 : ℚ) / 100 ≤ final_score then "HIGH"
        else if (50 : ℚ) / 100 ≤ final_score then "MEDIUM"
        else "LOW"
      { score := round2 final_score
        level := level
        source := "Knowledge Base (" ++ toString kb_matches ++ "/"
          ++ toString total_tests ++ " tests matched)" }

/-! An index-based restatement of the confidence scorer, written from the
amended reading of the spec (formula plus explicit random terms), to be
proved equal to the threaded implementation above. -/

/-- The i-th unit draw of a stream, 0 when exhausted. -/
def usAt (us : List ℚ) (i : Nat) : ℚ :=
  us.getD i 0

/-- The uniform(-0.05, 0.05) jitter added to a matched per-test score,
expressed over a unit draw. -/
def jitterOf (u : ℚ) : ℚ :=
  -(5 / 100) + (1 / 10) * u

/-- The uniform(0.20, 0.25) low-floor term (used both for an unmatched test
and for the batch baseline), expressed over a unit draw. -/
def floorOf (u : ℚ) : ℚ :=
  20 / 100 + (5 / 100) * u

/-- Amended per-test score: for a matched test the trust/priority blend
0.6*((trust-1)/4) + 0.4*((6-priority)/5) plus jitter, clamped to [0, 1]; for
an unmatched test a random low floor. -/
def perTestScoreAmended (u : ℚ) (r : Enriched) : ℚ :=
  if r.kb_found then
    max 0 (min 1
      ((6 / 10) * ((((r.kb_info.map (fun i => i.trust_level)).getD 3 : ℚ) - 1) / 4)
        + (4 / 10) * ((6 - ((r.kb_info.map (fun i => i.source_priority)).getD 3 : ℚ)) / 5)
        + jitterOf u))
  else
    floorOf u

/-- The list of amended per-test scores, the i-th scored with the i-th unit
draw of the stream. -/
def scoresFrom (us : List ℚ) : Nat → List Enriched → List ℚ
  | _, [] => []
  | i, r :: rs => perTestScoreAmended (usAt us i) r :: scoresFrom us (i + 1) rs

/-- The confidence scorer as the amended claim describes it: empty input
gives NONE; zero matches give a random 0.40-0.50 base at level LOW; else the
score is 0.4 * match rate + 0.6 * mean amended per-test score, floored at a
random 0.20-0.25 baseline, rounded to two decimals, with levels HIGH at 0.70
and MEDIUM at 0.50 on the pre-rounding value. -/
def calculate_confidence_amended (us : List ℚ) (results : List Enriched)
    (kb_matches : Nat) : ConfOutput :=
  if results.isEmpty then
    { score := 0, level := "NONE", source := "No tests extracted" }
  else if kb_matches == 0 then
    { score := round2 (40 / 100 + (10 / 100) * usAt us 0)
      level := "LOW"
      source := "AI Inference Only (No KB data)" }
  else
    let n := results.length
    let mean := (scoresFrom us 0 results).sum / (n : ℚ)
    let baseline := floorOf (usAt us n)
    let rate : ℚ := (kb_matches : ℚ) / (n : ℚ)
    let final := max baseline ((4 / 10) * rate + (6 / 10) * mean)
    { score := round2 final
      level :=
        if (70 : ℚ) / 100 ≤ final then "HIGH"
        else if (50 : ℚ) / 100 ≤ final then "MEDIUM"
        else "LOW"
      source := "Knowledge Base (" ++ toString kb_matches ++ "/"
        ++ toString n ++ " tests matched)" }

/-! Well-formedness of a knowledge-base snapshot: the foreign keys the
schema declares actually resolve.  The engine assumes a fully loaded store
(spec section 7 makes partial loads fatal at startup). -/

/-- Every range's source_id resolves to a source row. -/
def rangesSourcesWf (db : DB) : Bool :=
  db.ranges.all (fun r => (db.sources.find? (fun s => s.source_id == r.source_id)).isSome)

/-- Every synonym's test_id resolves to a test row. -/
def synonymsWf (db : DB) : Bool :=
  db.synonyms.all (fun syn => (db.tests.find? (fun t => t.test_id == syn.test_id)).isSome)

/-- The output dictionary get_reference_range builds for a winning range r
joined with its source s. -/
def buildRefInfo (r : Range) (s : Source) : RefRangeInfo :=
  { ref_low := r.ref_low
    ref_high := r.ref_high
    ref_text := r.ref_text
    unit := r.unit
    value_type := r.value_type
    source_id := r.source_id
    source_priority := r.source_priority
    trust_level := s.trust_level
    sex := r.sex
    condition := r.condition }

/-- The full statement of the range-selection contract for one query, used
by the selection theorem and its witness: the query returns None exactly when
no range passes the filter, and otherwise returns the dictionary of a
filtered range that no other filtered range strictly precedes under
(priority ascending, trust descending). -/
def refRangeSelectionSpec (db : DB) (test_id : Int) (sex : String) (age : Option ℚ) : Prop :=
  (get_reference_range db test_id sex age = none ↔
    ∀ r ∈ db.ranges, rangeMatches test_id sex age r = false)
  ∧ ∀ out, get_reference_range db test_id sex age = some out →
      ∃ r s, r ∈ db.ranges ∧ rangeMatches test_id sex age r = true
        ∧ db.sources.find? (fun s0 => s0.source_id == r.source_id) = some s
        ∧ out = buildRefInfo r s
        ∧ ∀ r0 s0, r0 ∈ db.ranges → rangeMatches test_id sex age r0 = true →
            db.sources.find? (fun s1 => s1.source_id == r0.source_id) = some s0 →
            ¬(r0.source_priority < r.source_priority)
              ∧ (r0.source_priority = r.source_priority → s0.trust_level ≤ s.trust_level)

/-- One-item shorthand for the enrich-then-classify pipeline the
orchestrator applies per extracted test. -/
def pipeOne (fmt : ℚ → String) (db : DB) (it : ParsedResult) : Classified :=
  classify_result fmt (enrichOne db it)

/-! Concrete knowledge-base snapshots and items used by witnesses and
counterexamples. -/

/-- Example test row: Hemoglobin. -/
def testHemoglobin : Test :=
  { test_id := 1
    canonical_name := "Hemoglobin"
    short_name := some "Hb"
    panel_name := some "CBC"
    specimen_type := some "Blood"
    category := some "Hematology"
    loinc_code := none
    description := none }

/-- Example test row: Glucose (used as the owner of a clashing synonym). -/
def testGlucose : Test :=
  { test_id := 2
    canonical_name := "Glucose"
    short_name := some "Glu"
    panel_name := some "Metabolic"
    specimen_type := some "Blood"
    category := some "Chemistry"
    loinc_code := none
    description := none }

/-- Example source with trust level 3. -/
def sourceTrust3 : Source :=
  { source_id := 1, name := "National Guideline", srcType := some "guideline"
    url := none, year := some 2020, trust_level := 3 }

/-- Example source with trust level 5. -/
def sourceTrust5 : Source :=
  { source_id := 2, name := "Single Study", srcType := some "study"
    url := none, year := some 2021, trust_level := 5 }

/-- Range with source_priority 1 owned by the trust-3 source. -/
def rangePrio1 : Range :=
  { range_id := 1, test_id := 1, source_id := 1
    canonical_name := some "Hemoglobin", unit := some "g/dL", value_type := some "numeric"
    ref_low := some 13, ref_high := some 17, ref_text := none
    sex := "Any", age_min := none, age_max := none, condition := none
    source_priority := 1, effective_year := none }

/-- Range with source_priority 2 owned by the trust-5 source. -/
def rangePrio2 : Range :=
  { range_id := 2, test_id := 1, source_id := 2
    canonical_name := some "Hemoglobin", unit := some "g/dL", value_type := some "numeric"
    ref_low := some 12, ref_high := some 16, ref_text := none
    sex := "Any", age_min := none, age_max := none, condition := none
    source_priority := 2, effective_year := none }

/-- Snapshot with the spec's tie-break pair: priority 1/trust 3 against
priority 2/trust 5 for the same test. -/
def dbTie : DB :=
  { tests := [testHemoglobin]
    sources := [sourceTrust3, sourceTrust5]
    ranges := [rangePrio1, rangePrio2]
    synonyms := [] }

/-- Snapshot where the raw name hits both the canonical name of Hemoglobin
and a synonym owned by the different test Glucose. -/
def dbClash : DB :=
  { tests := [testHemoglobin, testGlucose]
    sources := []
    ranges := []
    synonyms := [{ synonym_id := 1, test_id := 2, synonym := "Hemoglobin", source_id := none }] }

/-- Snapshot whose only test has no reference range at all. -/
def dbNoRange : DB :=
  { tests := [testHemoglobin], sources := [], ranges := [], synonyms := [] }

/-- Text-only range (both numeric bounds NULL) with a textual reference. -/
def rangeTextOnly : Range :=
  { range_id := 3, test_id := 1, source_id := 1
    canonical_name := some "Hemoglobin", unit := some "g/dL", value_type := some "text"
    ref_low := none, ref_high := none, ref_text := some "Negative"
    sex := "Any", age_min := none, age_max := none, condition := none
    source_priority := 1, effective_year := none }

/-- Snapshot whose only range is text-only with a textual reference. -/
def dbTextOnly : DB :=
  { tests := [testHemoglobin]
    sources := [sourceTrust3]
    ranges := [rangeTextOnly]
    synonyms := [] }

/-- Snapshot whose only range has neither numeric bounds nor a text
reference (ref_text NULL). -/
def dbTextNull : DB :=
  { tests := [testHemoglobin]
    sources := [sourceTrust3]
    ranges := [{ rangeTextOnly with ref_text := none }]
    synonyms := [] }

/-- Parsed item resolving to Hemoglobin with a numeric value. -/
def itHb : ParsedResult :=
  { test_name := "Hemoglobin"
    normalized_name := some "hemoglobin"
    value := some 5
    unit := "g/dL"
    reference_range := some "" }

/-- Parsed item with an unresolvable raw name. -/
def itXyz : ParsedResult :=
  { test_name := "XYZ123"
    normalized_name := some "xyz123"
    value := some 7
    unit := ""
    reference_range := some "" }

/-- Enriched result with no knowledge-base match, as fed to the confidence
scorer. -/
def eUnmatched : Enriched :=
  { item := itXyz, kb_info := none, kb_found := false }

/-- Enriched result matched at trust level 5 and source priority 1, as fed
to the confidence scorer. -/
def eMatchedTop : Enriched :=
  { item := itHb
    kb_info := some
      { test_id := 1, canonical_name := "Hemoglobin", short_name := some "Hb"
        panel_name := some "CBC", category := some "Hematology", description := none
        reference_range := none, trust_level := 5, source_priority := 1, kb_found := true }
    kb_found := true }

/-- The test info get_test_info builds for Hemoglobin against dbTie. -/
def infoHbTie : TestInfo :=
  { test_id := 1, canonical_name := "Hemoglobin", short_name := some "Hb"
    panel_name := some "CBC", category := some "Hematology", description := none
    reference_range := some (buildRefInfo rangePrio1 sourceTrust3)
    trust_level := 3, source_priority := 1, kb_found := true }

/-- The test info get_test_info builds for Hemoglobin against dbTextOnly. -/
def infoHbTextOnly : TestInfo :=
  { test_id := 1, canonical_name := "Hemoglobin", short_name := some "Hb"
    panel_name := some "CBC", category := some "Hematology", description := none
    reference_range := some (buildRefInfo rangeTextOnly sourceTrust3)
    trust_level := 3, source_priority := 1, kb_found := true }

/-! Lemmas about the ORDER BY model: membership is preserved and the head of
the sorted list is minimal for any irreflexive, appropriately transitive
strict order. -/

theorem mem_insOrdered (lt : α → α → Bool) (a x : α) (l : List α) :
    x ∈ insOrdered lt a l ↔ x = a ∨ x ∈ l := by
  induction l with
  | nil => simp [insOrdered]
  | cons b bs ih =>
    by_cases h : lt a b = true
    · simp [insOrdered, h]
    · simp only [insOrdered, if_neg h, List.mem_cons, ih]
      tauto

theorem mem_sortWith (lt : α → α → Bool) (x : α) (l : List α) :
    x ∈ sortWith lt l ↔ x ∈ l := by
  induction l with
  | nil => simp [sortWith]
  | cons a as ih => simp [sortWith, mem_insOrdered, ih]

theorem sortWith_eq_nil (lt : α → α → Bool) (l : List α) :
    sortWith lt l = [] ↔ l = [] := by
  cases l with
  | nil => simp [sortWith]
  | cons a as =>
    simp only [sortWith]
    constructor
    · intro h
      have : a ∈ insOrdered lt a (sortWith lt as) := by
        rw [mem_insOrdered]; exact Or.inl rfl
      rw [h] at this
      cases this
    · intro h; cases h

theorem sortWith_head_min (lt : α → α → Bool)
    (hirr : ∀ a, lt a a = false)
    (htrans : ∀ x y z, lt x y = true → lt y z = true → lt x z = true)
    (l : List α) (b : α) (t : List α) (hsort : sortWith lt l = b :: t) :
    ∀ x ∈ l, lt x b = false := by
  induction l generalizing b t with
  | nil => simp [sortWith] at hsort
  | cons a as ih =>
    simp only [sortWith] at hsort
    cases hs : sortWith lt as with
    | nil =>
      rw [hs] at hsort
      simp only [insOrdered] at hsort
      have hb : a = b := (List.cons_eq_cons.mp hsort).1
      intro x hx
      rcases List.mem_cons.mp hx with rfl | hx
      · rw [← hb]; exact hirr x
      · exact absurd ((mem_sortWith lt x as).mpr hx) (by rw [hs]; simp)
    | cons h0 t0 =>
      rw [hs] at hsort
      have hmin0 : ∀ x ∈ as, lt x h0 = false := ih h0 t0 hs
      by_cases hc : lt a h0 = true
      · simp only [insOrdered, if_pos hc] at hsort
        have hb : a = b := (List.cons_eq_cons.mp hsort).1
        intro x hx
        rw [← hb]
        rcases List.mem_cons.mp hx with rfl | hx
        · exact hirr x
        · by_contra hxa
          have hxa' : lt x a = true := by
            cases hxb : lt x a
            · exact absurd hxb hxa
            · rfl
          have : lt x h0 = true := htrans x a h0 hxa' hc
          rw [hmin0 x hx] at this
          cases this
      · have hc' : lt a h0 = false := by
          cases hab : lt a h0
          · rfl
          · exact absurd hab hc
        simp only [insOrdered, if_neg hc] at hsort
        have hb : h0 = b := (List.cons_eq_cons.mp hsort).1
        intro x hx
        rw [← hb]
        rcases List.mem_cons.mp hx with rfl | hx
        · exact hc'
        · exact hmin0 x hx

theorem sortWith_head_mem (lt : α → α → Bool) (l : List α) (b : α) (t : List α)
    (hsort : sortWith lt l = b :: t) : b ∈ l := by
  rw [← mem_sortWith lt b l, hsort]
  exact List.mem_cons_self b t

/-- The ORDER BY key order of get_reference_range is irreflexive. -/
theorem rangePrecedes_irrefl (a : Range × Source) : rangePrecedes a a = false := by
  simp [rangePrecedes]

/-- The ORDER BY key order of get_reference_range is transitive. -/
theorem rangePrecedes_trans (x y z : Range × Source)
    (hxy : rangePrecedes x y = true) (hyz : rangePrecedes y z = true) :
    rangePrecedes x z = true := by
  simp only [rangePrecedes, Bool.or_eq_true, Bool.and_eq_true, decide_eq_true_eq,
    beq_iff_eq] at hxy hyz ⊢
  omega

/-- A range that passes the filter joins to a candidate pair whenever the
snapshot resolves every range's source. -/
theorem joinSource_isSome_of_wf (db : DB) (hWf : rangesSourcesWf db = true)
    (r : Range) (hr : r ∈ db.ranges) : (joinSource db r).isSome := by
  have := (List.all_eq_true.mp hWf) r hr
  unfold joinSource
  cases h : db.sources.find? (fun s => s.source_id == r.source_id) with
  | none => rw [h] at this; cases this
  | some s => simp

/-- C2: for every test and patient, get_reference_range considers exactly the
ranges with matching test_id whose sex equals the requested sex or Any,
applies the age window (null bounds passing) only when an age is supplied
(the window is part of rangeMatches), orders candidates by source_priority
ascending then owning-source trust_level descending and returns the first,
and returns None when no candidate survives; stated for snapshots whose
ranges all resolve their source row. -/
theorem get_reference_range_selects (db : DB) (test_id : Int) (sex : String)
    (age : Option ℚ) (hWf : rangesSourcesWf db = true) :
    refRangeSelectionSpec db test_id sex age := by
  unfold refRangeSelectionSpec
  constructor
  · -- None exactly when no range passes the filter
    unfold get_reference_range
    cases hs : sortWith rangePrecedes
        ((db.ranges.filter (rangeMatches test_id sex age)).filterMap (joinSource db)) with
    | nil =>
      simp only [hs]
      have hcands : (db.ranges.filter (rangeMatches test_id sex age)).filterMap
          (joinSource db) = [] := (sortWith_eq_nil _ _).mp hs
      constructor
      · intro _ r hr
        by_contra hmatch
        have hmatch' : rangeMatches test_id sex age r = true := by
          cases h : rangeMatches test_id sex age r
          · exact absurd h hmatch
          · rfl
        have hrf : r ∈ db.ranges.filter (rangeMatches test_id sex age) :=
          List.mem_filter.mpr ⟨hr, hmatch'⟩
        have hnone := (List.filterMap_eq_nil_iff.mp hcands) r hrf
        have hsome := joinSource_isSome_of_wf db hWf r hr
        rw [hnone] at hsome
        cases hsome
      · intro _; trivial
    | cons best rest =>
      simp only [hs]
      constructor
      · intro h; cases h
      · intro hnone
        exfalso
        have hbest : best ∈ (db.ranges.filter (rangeMatches test_id sex age)).filterMap
            (joinSource db) := sortWith_head_mem _ _ _ _ hs
        rcases List.mem_filterMap.mp hbest with ⟨r, hrf, _⟩
        rcases List.mem_filter.mp hrf with ⟨hr, hmatch⟩
        rw [hnone r hr] at hmatch
        cases hmatch
  · -- A returned dictionary comes from a minimal filtered candidate
    intro out hout
    unfold get_reference_range at hout
    cases hs : sortWith rangePrecedes
        ((db.ranges.filter (rangeMatches test_id sex age)).filterMap (joinSource db)) with
    | nil => simp [hs] at hout
    | cons best rest =>
      simp only [hs] at hout
      have hbest : best ∈ (db.ranges.filter (rangeMatches test_id sex age)).filterMap
          (joinSource db) := sortWith_head_mem _ _ _ _ hs
      rcases List.mem_filterMap.mp hbest with ⟨r, hrf, hjoin⟩
      rcases List.mem_filter.mp hrf with ⟨hr, hmatch⟩
      unfold joinSource at hjoin
      rcases Option.map_eq_some'.mp hjoin with ⟨s, hfind, hpair⟩
      have hpair' : (r, s) = best := hpair
      refine ⟨r, s, hr, hmatch, hfind, ?_, ?_⟩
      · -- the output dictionary is built from r and s
        rw [← hpair'] at hout
        simp only [hfind, Option.map_some', Option.getD_some] at hout
        have := Option.some.inj hout
        rw [← this]
        rfl
      · -- minimality among filtered, joined candidates
        intro r0 s0 h0mem h0match h0find
        have h0cand : (r0, s0) ∈ (db.ranges.filter (rangeMatches test_id sex age)).filterMap
            (joinSource db) := by
          refine List.mem_filterMap.mpr ⟨r0, List.mem_filter.mpr ⟨h0mem, h0match⟩, ?_⟩
          unfold joinSource
          rw [h0find]
          rfl
        have hfalse := sortWith_head_min rangePrecedes rangePrecedes_irrefl
          rangePrecedes_trans _ best rest hs (r0, s0) h0cand
        rw [← hpair'] at hfalse
        simp only [rangePrecedes, Bool.or_eq_false_iff, Bool.and_eq_false_iff,
          decide_eq_false_iff_not, not_lt, beq_eq_false_iff_ne, ne_eq] at hfalse
        constructor
        · omega
        · intro hpeq
          rcases hfalse with ⟨h1, h2⟩
          rcases h2 with h2 | h2
          · exact absurd hpeq h2
          · omega

/-- C2 witness: against the tie-break snapshot, the priority-1/trust-3 range
wins over the priority-2/trust-5 range, and the selection contract holds
there concretely. -/
theorem get_reference_range_selects_witness :
    get_reference_range dbTie 1 "Male" none = some (buildRefInfo rangePrio1 sourceTrust3)
    ∧ refRangeSelectionSpec dbTie 1 "Male" none :=
  ⟨by decide, get_reference_range_selects dbTie 1 "Male" none (by decide)⟩

/-- C1: classify_value is total with range {LOW, NORMAL, HIGH}, returns LOW
exactly when a low bound is present and exceeds the value, HIGH exactly when
no such low bound fires and a high bound is present and is exceeded, NORMAL
otherwise, and for consistent bounds is monotone: a value past the high
bound is never LOW (it is HIGH). -/
theorem classify_value_total_monotone (v : ℚ) (lo hi : Option ℚ) :
    (classify_value v lo hi = "LOW" ∨ classify_value v lo hi = "NORMAL"
      ∨ classify_value v lo hi = "HIGH")
    ∧ (classify_value v lo hi = "LOW" ↔ ∃ l, lo = some l ∧ v < l)
    ∧ (classify_value v lo hi = "HIGH" ↔
        (∀ l, lo = some l → ¬ v < l) ∧ ∃ h, hi = some h ∧ h < v)
    ∧ (classify_value v lo hi = "NORMAL" ↔
        (∀ l, lo = some l → ¬ v < l) ∧ (∀ h, hi = some h → ¬ h < v))
    ∧ (∀ l h, lo = some l → hi = some h → l ≤ h → h < v →
        classify_value v lo hi = "HIGH") := by
  refine ⟨?_, ?_, ?_, ?_, ?_⟩
  case refine_5 =>
    intro l h hl hh hle hlt
    subst hl; subst hh
    unfold classify_value
    simp only [Option.any_some, decide_eq_true_eq]
    rw [if_neg (not_lt.mpr (by linarith : l ≤ v))]
    rw [if_pos (by linarith : h < v)]
  all_goals
    cases lo <;> cases hi <;>
      (try simp [classify_value]) <;>
      (try (split_ifs <;> simp_all))

/-- C1 witness: bounds 4 and 10 are consistent and the value 11 past the
high bound classifies HIGH, by the monotonicity clause. -/
theorem classify_value_total_monotone_witness :
    (4 : ℚ) ≤ 10 ∧ classify_value 11 (some 4) (some 10) = "HIGH" :=
  ⟨by norm_num,
    (classify_value_total_monotone 11 (some 4) (some 10)).2.2.2.2 4 10 rfl rfl
      (by norm_num) (by norm_num)⟩

/-- C4: find_test normalizes the raw name, then returns the first
canonical-name substring hit, else the first short-name hit, else the test
owning the first synonym hit, and None exactly when every step fails (stated
for snapshots whose synonyms all resolve their owning test). -/
theorem find_test_cascade (db : DB) (name : String) (hWf : synonymsWf db = true) :
    (find_test db name = none ↔
      (∀ t ∈ db.tests,
        ilikeContains t.canonical_name (normalize_test_name name) = false
          ∧ ilikeContainsOpt t.short_name (normalize_test_name name) = false)
      ∧ ∀ s ∈ db.synonyms,
          ilikeContains s.synonym (normalize_test_name name) = false)
    ∧ (∀ t, db.tests.find?
          (fun t0 => ilikeContains t0.canonical_name (normalize_test_name name)) = some t →
        find_test db name = some t)
    ∧ (db.tests.find?
          (fun t0 => ilikeContains t0.canonical_name (normalize_test_name name)) = none →
        ∀ t, db.tests.find?
            (fun t0 => ilikeContainsOpt t0.short_name (normalize_test_name name)) = some t →
          find_test db name = some t)
    ∧ (db.tests.find?
          (fun t0 => ilikeContains t0.canonical_name (normalize_test_name name)) = none →
        db.tests.find?
          (fun t0 => ilikeContainsOpt t0.short_name (normalize_test_name name)) = none →
        ∀ syn, db.synonyms.find?
            (fun s0 => ilikeContains s0.synonym (normalize_test_name name)) = some syn →
          find_test db name = db.tests.find? (fun t0 => t0.test_id == syn.test_id)) := by
  refine ⟨?_, ?_, ?_, ?_⟩
  · constructor
    · intro hnone
      unfold find_test at hnone
      cases hc : db.tests.find?
          (fun t0 => ilikeContains t0.canonical_name (normalize_test_name name)) with
      | some t => simp [hc] at hnone
      | none =>
        simp only [hc] at hnone
        cases hsh : db.tests.find?
            (fun t0 => ilikeContainsOpt t0.short_name (normalize_test_name name)) with
        | some t => simp [hsh] at hnone
        | none =>
          simp only [hsh] at hnone
          cases hsy : db.synonyms.find?
              (fun s0 => ilikeContains s0.synonym (normalize_test_name name)) with
          | some syn =>
            exfalso
            simp only [hsy] at hnone
            have := (List.all_eq_true.mp hWf) syn (List.mem_of_find?_eq_some hsy)
            rw [hnone] at this
            cases this
          | none =>
            refine ⟨?_, ?_⟩
            · intro t ht
              refine ⟨?_, ?_⟩
              · have := List.find?_eq_none.mp hc t ht
                cases h : ilikeContains t.canonical_name (normalize_test_name name)
                · rfl
                · exact absurd h this
              · have := List.find?_eq_none.mp hsh t ht
                cases h : ilikeContainsOpt t.short_name (normalize_test_name name)
                · rfl
                · exact absurd h this
            · intro s hsmem
              have := List.find?_eq_none.mp hsy s hsmem
              cases h : ilikeContains s.synonym (normalize_test_name name)
              · rfl
              · exact absurd h this
    · intro ⟨hts, hsyn⟩
      unfold find_test
      have hc : db.tests.find?
          (fun t0 => ilikeContains t0.canonical_name (normalize_test_name name)) = none :=
        List.find?_eq_none.mpr (fun t ht => by rw [(hts t ht).1]; simp)
      have hsh : db.tests.find?
          (fun t0 => ilikeContainsOpt t0.short_name (normalize_test_name name)) = none :=
        List.find?_eq_none.mpr (fun t ht => by rw [(hts t ht).2]; simp)
      have hsy : db.synonyms.find?
          (fun s0 => ilikeContains s0.synonym (normalize_test_name name)) = none :=
        List.find?_eq_none.mpr (fun s hs => by rw [hsyn s hs]; simp)
      simp only [hc, hsh, hsy]
  · intro t ht
    unfold find_test
    simp only [ht]
  · intro hc t ht
    unfold find_test
    simp only [hc, ht]
  · intro hc hsh syn hsy
    unfold find_test
    simp only [hc, hsh, hsy]

/-- C4 witness: the raw name hits both the canonical name of Hemoglobin and
a synonym owned by the different test Glucose; the canonical-name match
wins. -/
theorem find_test_cascade_witness :
    ilikeContains "Hemoglobin" (normalize_test_name "hemoglobin") = true
    ∧ find_test dbClash "hemoglobin" = some testHemoglobin :=
  ⟨by decide,
    (find_test_cascade dbClash "hemoglobin" (by decide)).2.1 testHemoglobin (by decide)⟩

/-- C10: batch resolution never forwards patient demographics — each item's
knowledge-base info comes from get_test_info on the effective name, a found
test's range is fetched with sex "Any" and no age, every range selected that
way has sex "Any", and with no age supplied the filter never inspects the
age window. -/
theorem batch_lookup_sex_any_no_age :
    (∀ (db : DB) (rs : List ParsedResult) (e : Enriched), e ∈ batch_lookup db rs →
      e.kb_info = get_test_info db (effectiveName e.item))
    ∧ (∀ (db : DB) (name : String) (info : TestInfo),
        get_test_info db name = some info →
        info.reference_range = get_reference_range db info.test_id "Any" none)
    ∧ (∀ (db : DB) (tid : Int) (out : RefRangeInfo),
        get_reference_range db tid "Any" none = some out → out.sex = "Any")
    ∧ (∀ (tid : Int) (sex : String) (r : Range),
        rangeMatches tid sex none r
          = (r.test_id == tid && (r.sex == sex || r.sex == "Any"))) := by
  refine ⟨?_, ?_, ?_, ?_⟩
  · intro db rs e he
    rcases List.mem_map.mp he with ⟨it, _, rfl⟩
    unfold enrichOne
    cases h : get_test_info db (effectiveName it) <;> simp [h]
  · intro db name info hinfo
    unfold get_test_info at hinfo
    cases hf : find_test db name with
    | none => simp [hf] at hinfo
    | some t =>
      simp only [hf] at hinfo
      have := Option.some.inj hinfo
      rw [← this]
  · intro db tid out hout
    unfold get_reference_range at hout
    cases hs : sortWith rangePrecedes
        ((db.ranges.filter (rangeMatches tid "Any" none)).filterMap (joinSource db)) with
    | nil => simp [hs] at hout
    | cons best rest =>
      simp only [hs] at hout
      have hbest : best ∈ (db.ranges.filter (rangeMatches tid "Any" none)).filterMap
          (joinSource db) := sortWith_head_mem _ _ _ _ hs
      rcases List.mem_filterMap.mp hbest with ⟨r, hrf, hjoin⟩
      rcases List.mem_filter.mp hrf with ⟨_, hmatch⟩
      unfold joinSource at hjoin
      rcases Option.map_eq_some'.mp hjoin with ⟨s, _, hpair⟩
      have hpair' : (r, s) = best := hpair
      have hsex : r.sex = "Any" := by
        simp only [rangeMatches, Bool.and_eq_true, Bool.or_eq_true, beq_iff_eq] at hmatch
        rcases hmatch with ⟨⟨_, hor⟩, _⟩
        rcases hor with h | h <;> exact h
      have := Option.some.inj hout
      rw [← this, ← hpair']
      exact hsex
  · intro tid sex r
    simp [rangeMatches]

/-- C10 witness: the range selected with sex "Any" and no age against the
tie-break snapshot indeed carries sex "Any". -/
theorem batch_lookup_sex_any_no_age_witness :
    (buildRefInfo rangePrio1 sourceTrust3).sex = "Any" :=
  batch_lookup_sex_any_no_age.2.2.1 dbTie 1 (buildRefInfo rangePrio1 sourceTrust3) (by decide)

/-- C5 (amended): the pipeline never drops or reorders items — the batch
output is exactly the per-item pipeline mapped over the input — and per-item
failures degrade without aborting: identity-resolution failure yields
kb_found false and UNKNOWN; range-selection failure yields kb_found TRUE
(not false as the original claim stated) with UNKNOWN; a missing numeric
value yields kb_found true with UNKNOWN. -/
theorem batch_pipeline_spec (fmt : ℚ → String) (db : DB) (items : List ParsedResult) :
    (classify_batch fmt (batch_lookup db items)).length = items.length
    ∧ classify_batch fmt (batch_lookup db items) = items.map (pipeOne fmt db)
    ∧ (∀ it, find_test db (effectiveName it) = none →
        (pipeOne fmt db it).kb_found = false
          ∧ (pipeOne fmt db it).classification = "UNKNOWN"
          ∧ (pipeOne fmt db it).classification_reason
              = some "Test not found in knowledge base")
    ∧ (∀ it t, find_test db (effectiveName it) = some t →
        get_reference_range db t.test_id "Any" none = none →
        (pipeOne fmt db it).kb_found = true
          ∧ (pipeOne fmt db it).classification = "UNKNOWN"
          ∧ (pipeOne fmt db it).classification_reason
              = some "No reference range available")
    ∧ (∀ it t rr, find_test db (effectiveName it) = some t →
        get_reference_range db t.test_id "Any" none = some rr →
        it.value = none →
        (pipeOne fmt db it).kb_found = true
          ∧ (pipeOne fmt db it).classification = "UNKNOWN"
          ∧ (pipeOne fmt db it).classification_reason
              = some "No numeric value available") := by
  refine ⟨?_, ?_, ?_, ?_, ?_⟩
  · simp [classify_batch, batch_lookup]
  · unfold classify_batch batch_lookup pipeOne
    rw [List.map_map]
    rfl
  · intro it hfind
    unfold pipeOne enrichOne get_test_info
    simp only [hfind]
    unfold classify_result
    simp [unknownResult]
  · intro it t hfind hrr
    unfold pipeOne enrichOne get_test_info
    simp only [hfind, hrr]
    unfold classify_result
    simp [unknownResult]
  · intro it t rr hfind hrr hval
    unfold pipeOne enrichOne get_test_info
    simp only [hfind, hrr]
    unfold classify_result
    simp [unknownResult, hval]

/-- C5 witness: against a snapshot with a test but no ranges, the matched
item survives with kb_found true and classification UNKNOWN. -/
theorem batch_pipeline_spec_witness :
    (pipeOne (fun _ => "") dbNoRange itHb).kb_found = true
    ∧ (pipeOne (fun _ => "") dbNoRange itHb).classification = "UNKNOWN"
    ∧ (pipeOne (fun _ => "") dbNoRange itHb).classification_reason
        = some "No reference range available" :=
  (batch_pipeline_spec (fun _ => "") dbNoRange []).2.2.2.1 itHb testHemoglobin
    (by decide) (by decide)

/-- C5 counterexample: range selection fails for a resolved test, yet the
item is emitted with kb_found = true (the claim required kb_found = false). -/
theorem range_failure_keeps_kb_found_cx :
    find_test dbNoRange (effectiveName itHb) = some testHemoglobin
    ∧ get_reference_range dbNoRange testHemoglobin.test_id "Any" none = none
    ∧ (pipeOne (fun _ => "") dbNoRange itHb).kb_found = true
    ∧ (pipeOne (fun _ => "") dbNoRange itHb).kb_found ≠ false := by decide

/-- C6 (amended): when the selected range has both numeric bounds absent,
classify_value is still invoked — with no bounds it returns NORMAL, not
UNKNOWN — and the display falls back to the raw text range value. -/
theorem classify_text_only_amended (fmt : ℚ → String) (e : Enriched)
    (info : TestInfo) (rr : RefRangeInfo) (v : ℚ)
    (h1 : e.kb_found = true) (h2 : e.kb_info = some info)
    (h3 : info.reference_range = some rr)
    (h4 : rr.ref_low = none) (h5 : rr.ref_high = none)
    (h6 : e.item.value = some v) :
    (classify_result fmt e).classification = classify_value v rr.ref_low rr.ref_high
    ∧ (classify_result fmt e).classification = "NORMAL"
    ∧ (classify_result fmt e).reference_range = rr.ref_text
    ∧ (classify_result fmt e).classification_reason = none := by
  unfold classify_result
  simp [h1, h2, h3, h4, h5, h6, classify_value]

/-- C6 witness: the text-only Negative range yields classification NORMAL
with the textual reference as display. -/
theorem classify_text_only_amended_witness :
    (classify_result (fun _ => "") (enrichOne dbTextOnly itHb)).classification = "NORMAL"
    ∧ (classify_result (fun _ => "") (enrichOne dbTextOnly itHb)).reference_range
        = (buildRefInfo rangeTextOnly sourceTrust3).ref_text :=
  ⟨(classify_text_only_amended (fun _ => "") (enrichOne dbTextOnly itHb) infoHbTextOnly
      (buildRefInfo rangeTextOnly sourceTrust3) 5 (by decide) (by decide) (by decide)
      (by decide) (by decide) (by decide)).2.1,
   (classify_text_only_amended (fun _ => "") (enrichOne dbTextOnly itHb) infoHbTextOnly
      (buildRefInfo rangeTextOnly sourceTrust3) 5 (by decide) (by decide) (by decide)
      (by decide) (by decide) (by decide)).2.2.1⟩

/-- C6 counterexample: for a matched test whose selected range is text-only
(both bounds NULL), the classifier is invoked and the item is classified
NORMAL, not UNKNOWN. -/
theorem text_only_classified_normal_cx :
    get_reference_range dbTextOnly 1 "Any" none
        = some (buildRefInfo rangeTextOnly sourceTrust3)
    ∧ (buildRefInfo rangeTextOnly sourceTrust3).ref_low = none
    ∧ (buildRefInfo rangeTextOnly sourceTrust3).ref_high = none
    ∧ (pipeOne (fun _ => "") dbTextOnly itHb).classification = "NORMAL"
    ∧ (pipeOne (fun _ => "") dbTextOnly itHb).classification ≠ "UNKNOWN" := by decide

/-- C8 (amended): the display string is "low - high unit" with both bounds,
"> low unit" with only the low bound, "< high unit" with only the high
bound, and otherwise the raw ref_text value — which is null, not the string
N/A, when the range has no text (the N/A default in the code is dead because
the ref_text key is always present). -/
theorem display_format_amended (fmt : ℚ → String) (e : Enriched)
    (info : TestInfo) (rr : RefRangeInfo) (v : ℚ)
    (h1 : e.kb_found = true) (h2 : e.kb_info = some info)
    (h3 : info.reference_range = some rr)
    (h6 : e.item.value = some v) :
    (∀ lo hi, rr.ref_low = some lo → rr.ref_high = some hi →
      (classify_result fmt e).reference_range
        = some (fmt lo ++ " - " ++ fmt hi ++ " " ++ pyOptStr rr.unit))
    ∧ (∀ lo, rr.ref_low = some lo → rr.ref_high = none →
      (classify_result fmt e).reference_range
        = some ("> " ++ fmt lo ++ " " ++ pyOptStr rr.unit))
    ∧ (∀ hi, rr.ref_low = none → rr.ref_high = some hi →
      (classify_result fmt e).reference_range
        = some ("< " ++ fmt hi ++ " " ++ pyOptStr rr.unit))
    ∧ (rr.ref_low = none → rr.ref_high = none →
      (classify_result fmt e).reference_range = rr.ref_text) := by
  refine ⟨?_, ?_, ?_, ?_⟩ <;>
    first
    | (intro lo hi hlo hhi
       unfold classify_result
       simp [h1, h2, h3, h6, hlo, hhi])
    | (intro lo hlo hhi
       unfold classify_result
       simp [h1, h2, h3, h6, hlo, hhi])
    | (intro hlo hhi
       unfold classify_result
       simp [h1, h2, h3, h6, hlo, hhi])

/-- C8 witness: with both bounds present the display is rendered as
low - high unit. -/
theorem display_format_amended_witness :
    (classify_result (fun _ => "") (enrichOne dbTie itHb)).reference_range
      = some ("" ++ " - " ++ "" ++ " " ++ "g/dL") :=
  (display_format_amended (fun _ => "") (enrichOne dbTie itHb) infoHbTie
    (buildRefInfo rangePrio1 sourceTrust3) 5 (by decide) (by decide) (by decide)
    (by decide)).1 13 17 (by decide) (by decide)

/-- C8 counterexample: a selected range with no bounds and NULL ref_text
displays null, not the string N/A the claim promises. -/
theorem display_null_text_cx :
    get_reference_range dbTextNull 1 "Any" none
        = some (buildRefInfo { rangeTextOnly with ref_text := none } sourceTrust3)
    ∧ (pipeOne (fun _ => "") dbTextNull itHb).reference_range = none
    ∧ (pipeOne (fun _ => "") dbTextNull itHb).reference_range ≠ some "N/A" := by decide

/-- C9: the overall confidence level in the formatted response is derived
solely from the OCR confidence via the fixed thresholds — HIGH exactly when
it is at least 0.8, MEDIUM exactly when it is in [0.6, 0.8), LOW otherwise —
and is unchanged under any replacement of the classified results and
summary, so knowledge-base trust levels never influence it; the evidence
scorer calculate_confidence is not part of format_results at all. -/
theorem confidence_level_from_ocr_only (results results' : List Classified)
    (ocr : ℚ) (s s' : String) :
    ((format_results results ocr s).confidence_level = "HIGH" ↔ (8 : ℚ) / 10 ≤ ocr)
    ∧ ((format_results results ocr s).confidence_level = "MEDIUM" ↔
        (6 : ℚ) / 10 ≤ ocr ∧ ocr < (8 : ℚ) / 10)
    ∧ ((format_results results ocr s).confidence_level = "LOW" ↔ ocr < (6 : ℚ) / 10)
    ∧ (format_results results ocr s).confidence_level
        = (format_results results' ocr s').confidence_level := by
  have hlevel : ∀ (res : List Classified) (str : String),
      (format_results res ocr str).confidence_level
        = if (8 : ℚ) / 10 ≤ ocr then "HIGH"
          else if (6 : ℚ) / 10 ≤ ocr then "MEDIUM" else "LOW" := fun res str => rfl
  rw [hlevel, hlevel]
  refine ⟨?_, ?_, ?_, rfl⟩ <;> split_ifs with h1 h2 <;> (simp_all; try linarith)

/-! Lemmas relating the threaded randomness of calculate_confidence to the
indexed draws of the amended restatement. -/

theorem drawU_eq (us : List ℚ) : drawU us = (usAt us 0, us.drop 1) := by
  cases us <;> rfl

theorem drawU_drop (us : List ℚ) (n : Nat) : (drawU (us.drop n)).1 = usAt us n := by
  rw [drawU_eq]
  simp [usAt, List.getD_eq_getElem?_getD, List.getElem?_drop]

theorem usAt_tail (us : List ℚ) (i : Nat) : usAt (us.drop 1) i = usAt us (i + 1) := by
  cases us <;> rfl

theorem scoresFrom_tail (us : List ℚ) (l : List Enriched) (i : Nat) :
    scoresFrom (us.drop 1) i l = scoresFrom us (i + 1) l := by
  induction l generalizing i with
  | nil => rfl
  | cons r rs ih =>
    show perTestScoreAmended (usAt (us.drop 1) i) r :: scoresFrom (us.drop 1) (i + 1) rs
        = perTestScoreAmended (usAt us (i + 1)) r :: scoresFrom us (i + 1 + 1) rs
    rw [usAt_tail, ih]

theorem confStep_eq (p : ℚ × List ℚ) (r : Enriched) :
    confStep p r = (p.1 + perTestScoreAmended (usAt p.2 0) r, p.2.drop 1) := by
  unfold confStep perTestScoreAmended uniformDraw jitterOf floorOf
  rw [drawU_eq]
  cases hk : r.kb_found <;> simp only [hk, Bool.false_eq_true, if_false, if_true]
  · refine Prod.ext ?_ ?_
    · simp only
      ring_nf
    · rfl
  · refine Prod.ext ?_ ?_
    · simp only
      congr 1
      congr 1
      ring_nf
    · rfl

theorem foldl_confStep_eq (l : List Enriched) (acc : ℚ) (us : List ℚ) :
    l.foldl confStep (acc, us) = (acc + (scoresFrom us 0 l).sum, us.drop l.length) := by
  induction l generalizing acc us with
  | nil => simp [scoresFrom]
  | cons r rs ih =>
    rw [List.foldl_cons, confStep_eq, ih, scoresFrom_tail]
    refine Prod.ext ?_ ?_
    · simp only [scoresFrom, List.sum_cons]
      ring
    · simp only [List.drop_drop, List.length_cons]
      congr 1
      omega

/-- The implementation of calculate_confidence coincides with its amended,
index-based restatement for every draw stream. -/
theorem calc_conf_eq_amended_aux (us : List ℚ) (results : List Enriched)
    (kb_matches : Nat) :
    calculate_confidence us results kb_matches
      = calculate_confidence_amended us results kb_matches := by
  unfold calculate_confidence calculate_confidence_amended
  cases hre : results.isEmpty
  case true => simp [hre]
  case false =>
    simp only [hre, Bool.false_eq_true, if_false]
    cases hk0 : (kb_matches == 0)
    case true =>
      simp only [hk0, if_true]
      unfold uniformDraw
      rw [drawU_eq]
      simp only
      congr 1
      unfold round2
      congr 2
      ring_nf
    case false =>
      simp only [hk0, Bool.false_eq_true, if_false]
      rw [foldl_confStep_eq]
      simp only [uniformDraw, floorOf, zero_add]
      rw [drawU_drop]
      have hbase :
          (20 : ℚ) / 100 + (25 / 100 - 20 / 100) * usAt us results.length
            = 20 / 100 + 5 / 100 * usAt us results.length := by
        ring
      have hfinal :
          ((kb_matches : ℚ) / (results.length : ℚ)) * (4 / 10)
              + ((scoresFrom us 0 results).sum / (results.length : ℚ)) * (6 / 10)
            = (4 : ℚ) / 10 * ((kb_matches : ℚ) / (results.length : ℚ))
              + 6 / 10 * ((scoresFrom us 0 results).sum / (results.length : ℚ)) := by
        ring
      rw [hbase, hfinal]

theorem scoresFrom_congr (us us' : List ℚ) (l : List Enriched) (i : Nat)
    (h : ∀ j, j < l.length → usAt us (i + j) = usAt us' (i + j)) :
    scoresFrom us i l = scoresFrom us' i l := by
  induction l generalizing i with
  | nil => rfl
  | cons r rs ih =>
    show perTestScoreAmended (usAt us i) r :: scoresFrom us (i + 1) rs
        = perTestScoreAmended (usAt us' i) r :: scoresFrom us' (i + 1) rs
    have h0 : usAt us i = usAt us' i := by
      have := h 0 (by simp)
      simpa using this
    rw [h0]
    congr 1
    apply ih
    intro j hj
    have hidx : i + 1 + j = i + (j + 1) := by omega
    rw [hidx]
    exact h (j + 1) (by simp only [List.length_cons]; omega)

/-- C7 (amended): the confidence scorer equals the amended index-based
formula for every draw stream — per matched test the 0.6/0.4 trust-priority
blend plus a uniform(-0.05, 0.05) jitter clamped to [0, 1], a random
0.20-0.25 contribution per unmatched test, the 0.4/0.6 blend of match rate
and mean floored at a random 0.20-0.25 baseline and rounded to two decimals,
levels HIGH at 0.70 and MEDIUM at 0.50 on the pre-rounding score, a random
0.40-0.50 LOW score when nothing matched, and NONE on an empty batch. -/
theorem calculate_confidence_amended_spec (us : List ℚ) (results : List Enriched)
    (kb_matches : Nat) :
    calculate_confidence us results kb_matches
      = calculate_confidence_amended us results kb_matches :=
  calc_conf_eq_amended_aux us results kb_matches

/-- C3 (amended): knowledge-base resolution and classification are pure
functions of the item and the snapshot, but the confidence scorer is
deterministic only relative to its hidden draws: it reads exactly the first
results.length + 1 unit draws, so two runs agreeing on those agree on the
output, while runs with different draws can differ. -/
theorem confidence_deterministic_given_draws (results : List Enriched)
    (kb_matches : Nat) (us us' : List ℚ)
    (h : ∀ i, i < results.length + 1 → usAt us i = usAt us' i) :
    calculate_confidence us results kb_matches
      = calculate_confidence us' results kb_matches := by
  rw [calc_conf_eq_amended_aux, calc_conf_eq_amended_aux]
  unfold calculate_confidence_amended
  cases hre : results.isEmpty
  case true => simp [hre]
  case false =>
    simp only [hre, Bool.false_eq_true, if_false]
    cases hk0 : (kb_matches == 0)
    case true =>
      simp only [hk0, if_true]
      rw [h 0 (by omega)]
    case false =>
      simp only [hk0, Bool.false_eq_true, if_false]
      rw [h results.length (by omega)]
      rw [scoresFrom_congr us us' results 0
        (fun j hj => by
          have := h j (by omega)
          simpa using this)]

/-- C3 witness: two runs whose streams agree on the consumed draws return
the same confidence output, applied at a one-element matched batch. -/
theorem confidence_deterministic_given_draws_witness :
    calculate_confidence [0, 1, 7] [eMatchedTop] 1
      = calculate_confidence [0, 1] [eMatchedTop] 1 :=
  confidence_deterministic_given_draws [eMatchedTop] 1 [0, 1, 7] [0, 1] (by decide)

/-- Evaluates round2 at an input whose scaled floor is known. -/
theorem round2_eq_of (x : ℚ) (n : ℤ) (h1 : (n : ℚ) ≤ 100 * x + 1 / 2)
    (h2 : 100 * x + 1 / 2 < (n : ℚ) + 1) : round2 x = (n : ℚ) / 100 := by
  unfold round2
  rw [show ⌊100 * x + 1 / 2⌋ = n from Int.floor_eq_iff.mpr ⟨h1, by exact_mod_cast h2⟩]

/-- C3 counterexample: two runs on identical inputs (same results, same
match count, unchanged snapshot) differing only in the hidden random draw
return different confidence outputs. -/
theorem confidence_two_runs_differ_cx :
    calculate_confidence [0] [eUnmatched] 0 ≠ calculate_confidence [1] [eUnmatched] 0 := by
  have h1 : (calculate_confidence [0] [eUnmatched] 0).score = 40 / 100 := by
    show round2 ((40 : ℚ) / 100 + ((50 : ℚ) / 100 - 40 / 100) * 0) = 40 / 100
    rw [round2_eq_of _ 40 (by norm_num) (by norm_num)]
    norm_num
  have h2 : (calculate_confidence [1] [eUnmatched] 0).score = 50 / 100 := by
    show round2 ((40 : ℚ) / 100 + ((50 : ℚ) / 100 - 40 / 100) * 1) = 50 / 100
    rw [round2_eq_of _ 50 (by norm_num) (by norm_num)]
    norm_num
  intro heq
  have hsc := congrArg ConfOutput.score heq
  rw [h1, h2] at hsc
  norm_num at hsc

/-- C7 counterexample: with one matched test at trust 5 and priority 1 the
claimed deterministic formula would give one fixed score, but two runs give
0.97 and 1.0 for the same input, so the per-test score is not the plain
clamped blend. -/
theorem confidence_jitter_cx :
    (calculate_confidence [0, 0] [eMatchedTop] 1).score = 97 / 100
    ∧ (calculate_confidence [(1 : ℚ) / 2, 0] [eMatchedTop] 1).score = 1
    ∧ ((97 : ℚ) / 100 ≠ 1) := by
  have hper : ∀ u : ℚ, perTestScoreAmended u eMatchedTop
      = max 0 (min 1 (19 / 20 + u / 10)) := by
    intro u
    unfold perTestScoreAmended jitterOf
    rw [if_pos (show eMatchedTop.kb_found = true from rfl)]
    congr 1
    congr 1
    simp only [eMatchedTop, Option.map_some', Option.getD_some]
    push_cast
    ring
  have hsc : ∀ u : ℚ, (calculate_confidence [u, 0] [eMatchedTop] 1).score
      = round2 (max (floorOf (usAt [u, 0] [eMatchedTop].length))
          (4 / 10 * (((1 : Nat) : ℚ) / (([eMatchedTop].length : Nat) : ℚ))
            + 6 / 10 * ((scoresFrom [u, 0] 0 [eMatchedTop]).sum
                / (([eMatchedTop].length : Nat) : ℚ)))) := by
    intro u
    rw [calc_conf_eq_amended_aux]
    rfl
  refine ⟨?_, ?_, by norm_num⟩
  · rw [hsc 0]
    have hsum : (scoresFrom [(0 : ℚ), 0] 0 [eMatchedTop]).sum = 19 / 20 := by
      show (perTestScoreAmended (usAt [(0 : ℚ), 0] 0) eMatchedTop
        :: scoresFrom [(0 : ℚ), 0] (0 + 1) []).sum = 19 / 20
      rw [show usAt [(0 : ℚ), 0] 0 = 0 from rfl, hper 0]
      norm_num [scoresFrom, min_def, max_def]
    have hbase : floorOf (usAt [(0 : ℚ), 0] [eMatchedTop].length) = 1 / 5 := by
      norm_num [floorOf, usAt]
    rw [hsum, hbase]
    have harg : max ((1 : ℚ) / 5)
        (4 / 10 * (((1 : Nat) : ℚ) / (([eMatchedTop].length : Nat) : ℚ))
          + 6 / 10 * ((19 : ℚ) / 20 / (([eMatchedTop].length : Nat) : ℚ))) = 97 / 100 := by
      norm_num [max_def]
    rw [harg, round2_eq_of _ 97 (by norm_num) (by norm_num)]
    norm_num
  · rw [hsc ((1 : ℚ) / 2)]
    have hsum : (scoresFrom [(1 : ℚ) / 2, 0] 0 [eMatchedTop]).sum = 1 := by
      show (perTestScoreAmended (usAt [(1 : ℚ) / 2, 0] 0) eMatchedTop
        :: scoresFrom [(1 : ℚ) / 2, 0] (0 + 1) []).sum = 1
      rw [show usAt [(1 : ℚ) / 2, 0] 0 = 1 / 2 from rfl, hper (1 / 2)]
      norm_num [scoresFrom, min_def, max_def]
    have hbase : floorOf (usAt [(1 : ℚ) / 2, 0] [eMatchedTop].length) = 1 / 5 := by
      norm_num [floorOf, usAt]
    rw [hsum, hbase]
    have harg : max ((1 : ℚ) / 5)
        (4 / 10 * (((1 : Nat) : ℚ) / (([eMatchedTop].length : Nat) : ℚ))
          + 6 / 10 * ((1 : ℚ) / (([eMatchedTop].length : Nat) : ℚ))) = 1 := by
      norm_num [max_def]
    rw [harg, round2_eq_of _ 100 (by norm_num) (by norm_num)]
    norm_num

end LabWise
